import Mathlib

/-!
Verification of the ICPSimpleBank account ledger.

Shallow embedding of `src/icp_rust_boilerplate_backend/src/lib.rs`.

Modelling conventions:
* The Rust `f64` balance is modelled as an exact rational number (`Rat`).
* `HashMap<String, Account>` is modelled as an association list of
  key/account pairs; `HashMap::get`/`get_mut` is first-match lookup by key
  (keys are unique in every map the API can build, see `WF`).
* Stable storage is modelled by explicit state passing: every canister
  method takes the restored `State` and returns the state that is persisted
  when it calls `update_state` (error paths return the input state, since
  the Rust code never calls `update_state` on them).
* Success payloads are the values the Rust code interpolates into its
  success message (for `transfer_money`: the pair of `amount` and
  `src_balance` from the format string); error payloads are the verbatim
  error strings.
* `.unwrap()` on a missing key is modelled as a trap that leaves the
  persisted state unchanged, which is what a Rust panic does in a canister.
-/

instance {ε α : Type} [DecidableEq ε] [DecidableEq α] : DecidableEq (Except ε α) := by
  intro x y
  cases x <;> cases y
  case error.error a b =>
    exact if h : a = b then isTrue (by rw [h]) else isFalse (by intro hc; cases hc; exact h rfl)
  case error.ok a b => exact isFalse (by intro hc; cases hc)
  case ok.error a b => exact isFalse (by intro hc; cases hc)
  case ok.ok a b =>
    exact if h : a = b then isTrue (by rw [h]) else isFalse (by intro hc; cases hc; exact h rfl)

/-- Rust struct `Account` (lib.rs lines 7-12): `id`, plaintext `password`,
and an `f64` balance modelled as a rational. -/
structure Account where
  id : String
  password : String
  balance : Rat
deriving DecidableEq, Repr

/-- Rust struct `State` (lib.rs lines 15-18): the account map, modelled as an
association list from key to `Account`. -/
structure State where
  accounts : List (String × Account)
deriving DecidableEq, Repr

/-- `HashMap::get` / `get_mut` target: the first entry with the given key. -/
def getAccount (accounts : List (String × Account)) (k : String) : Option Account :=
  (accounts.find? (fun x => x.1 = k)).map (fun x => x.2)

/-- `HashMap::insert`: replace the entry stored at the key, or add a new one. -/
def insertAccount (accounts : List (String × Account)) (k : String) (a : Account) :
    List (String × Account) :=
  if accounts.any (fun x => x.1 = k) then
    accounts.map (fun x => if x.1 = k then (k, a) else x)
  else
    accounts ++ [(k, a)]

/-- Mutation through `HashMap::get_mut(&k)`: apply `g` to the account stored
at key `k`, leaving every other entry unchanged. -/
def mapAt (accounts : List (String × Account)) (k : String) (g : Account → Account) :
    List (String × Account) :=
  accounts.map (fun x => if x.1 = k then (x.1, g x.2) else x)

/-- `state.accounts.get_mut(&k).unwrap().balance = b`: overwrite the balance
stored at key `k`. -/
def setBalance (accounts : List (String × Account)) (k : String) (b : Rat) :
    List (String × Account) :=
  mapAt accounts k (fun a => { a with balance := b })

/-- `state.accounts.get_mut(&k).unwrap().password = p`: overwrite the password
stored at key `k`. -/
def setPassword (accounts : List (String × Account)) (k : String) (p : String) :
    List (String × Account) :=
  mapAt accounts k (fun a => { a with password := p })

/-- Rust `validate_password` (lib.rs lines 59-65); `str::len` is the UTF-8
byte length. -/
def validate_password (password : String) : Except String Unit :=
  if password.utf8ByteSize < 8 then
    Except.error "Password must be at least 8 characters long"
  else
    Except.ok ()

/-- Rust `validate_amount` (lib.rs lines 68-74). -/
def validate_amount (amount : Rat) : Except String Unit :=
  if amount ≤ 0 then
    Except.error "Transfer amount must be greater than 0"
  else
    Except.ok ()

/-- Rust `make_account` (lib.rs lines 77-94). The environment-supplied fresh
id (`State::generate_random_string`) is passed in as `random_id`; on success
the Rust code formats the id into its message, so the payload is the id. -/
def make_account (random_id : String) (password : String) (st : State) :
    Except String String × State :=
  match validate_password password with
  | Except.error e => (Except.error e, st)
  | Except.ok _ =>
    let account : Account := { id := random_id, password := password, balance := 100 }
    (Except.ok random_id, { accounts := insertAccount st.accounts random_id account })

/-- Rust `transfer_money` (lib.rs lines 125-169). The success payload is the
pair `(amount, src_balance)` interpolated into the Rust success message,
where `src_balance` is read from the source account right after the
deduction. -/
def transfer_money (password : String) (amount : Rat) (dest_id : String) (st : State) :
    Except String (Rat × Rat) × State :=
  match validate_password password with
  | Except.error e => (Except.error e, st)
  | Except.ok _ =>
    match validate_amount amount with
    | Except.error e => (Except.error e, st)
    | Except.ok _ =>
      let source_account_id :=
        (st.accounts.find? (fun x => x.2.password = password)).map (fun x => x.1)
      let dest_account_id := (getAccount st.accounts dest_id).map (fun a => a.id)
      match source_account_id, dest_account_id with
      | some src_id, some dest_id2 =>
        match getAccount st.accounts src_id with
        | none => (Except.error "trap: unwrap on None", st)
        | some src =>
          if src.balance ≥ amount then
            let accounts1 := setBalance st.accounts src_id (src.balance - amount)
            let src_balance := src.balance - amount
            match getAccount accounts1 dest_id2 with
            | none => (Except.error "trap: unwrap on None", st)
            | some dest =>
              (Except.ok (amount, src_balance),
               { accounts := setBalance accounts1 dest_id2 (dest.balance + amount) })
          else
            (Except.error "Insufficient balance", st)
      | _, _ =>
        (Except.error "Transfer failed. Either source or destination account not found.", st)

/-- Rust `delete_account` (lib.rs lines 172-189): `HashMap::remove` deletes
the entry stored at the resolved key. -/
def delete_account (password : String) (st : State) : Except String String × State :=
  match (st.accounts.find? (fun x => x.2.password = password)).map (fun x => x.1) with
  | some id =>
    (Except.ok "Account deleted successfully",
     { accounts := st.accounts.eraseP (fun x => x.1 = id) })
  | none => (Except.error "Account not found or incorrect password", st)

/-- Rust `update_password` (lib.rs lines 192-212). -/
def update_password (old_password new_password : String) (st : State) :
    Except String String × State :=
  match validate_password new_password with
  | Except.error e => (Except.error e, st)
  | Except.ok _ =>
    match (st.accounts.find? (fun x => x.2.password = old_password)).map (fun x => x.1) with
    | some id =>
      match getAccount st.accounts id with
      | none => (Except.error "trap: unwrap on None", st)
      | some _ =>
        (Except.ok "Password updated successfully",
         { accounts := setPassword st.accounts id new_password })
    | none => (Except.error "Account not found or incorrect old password", st)

/-- Rust `get_balance` (lib.rs lines 215-228): a read-only query; the payload
is the balance interpolated into the Rust success message. -/
def get_balance (password : String) (st : State) : Except String Rat :=
  if password.isEmpty then
    Except.error "Password cannot be empty"
  else
    match st.accounts.find? (fun x => x.2.password = password) with
    | some x => Except.ok x.2.balance
    | none => Except.error "Account not found"

/-- The credential scan of `transfer_money` / `update_password` /
`delete_account`: first account whose stored password equals the supplied
secret, together with its key. -/
def findSource (st : State) (password : String) : Option (String × Account) :=
  st.accounts.find? (fun x => x.2.password = password)

/-- Balance stored at a key (0 when the key is absent). -/
def balOf (st : State) (k : String) : Rat :=
  ((getAccount st.accounts k).map (fun a => a.balance)).getD 0

/-- Well-formedness of a ledger: keys are unique (as in any `HashMap`) and
each account's `id` field equals the key it is stored under (the spec's
data-model invariant, maintained by every operation). -/
def WF (st : State) : Prop :=
  (st.accounts.map (fun x => x.1)).Nodup ∧ ∀ x ∈ st.accounts, x.2.id = x.1

/-- Every stored balance is non-negative. -/
def Nonneg (st : State) : Prop := ∀ x ∈ st.accounts, 0 ≤ x.2.balance

/-- Every stored password has at least 8 bytes. -/
def PwLenInv (st : State) : Prop := ∀ x ∈ st.accounts, 8 ≤ x.2.password.utf8ByteSize

/-- Concrete two-account ledger used by the concrete instantiations below. -/
def exLedger : State :=
  ⟨[("A", ⟨"A", "password1", 100⟩), ("B", ⟨"B", "password2", 50⟩)]⟩

/-- `exLedger` after transferring 30 from account `A` to account `B`. -/
def exLedgerT : State :=
  ⟨[("A", ⟨"A", "password1", 70⟩), ("B", ⟨"B", "password2", 80⟩)]⟩

/-- `exLedger` after rotating account `A`'s password to `"password3"`. -/
def exLedgerR : State :=
  ⟨[("A", ⟨"A", "password3", 100⟩), ("B", ⟨"B", "password2", 50⟩)]⟩

/-- Concrete three-account ledger used by the frame-property instantiation. -/
def exLedger3 : State :=
  ⟨[("A", ⟨"A", "password1", 100⟩), ("B", ⟨"B", "password2", 50⟩),
    ("C", ⟨"C", "password3", 7⟩)]⟩

/-- `exLedger3` after transferring 30 from account `A` to account `B`. -/
def exLedger3T : State :=
  ⟨[("A", ⟨"A", "password1", 70⟩), ("B", ⟨"B", "password2", 80⟩),
    ("C", ⟨"C", "password3", 7⟩)]⟩

/-! ## Lookup and mutation lemmas for the association-list model -/

lemma mapAt_eq_map (l : List (String × Account)) (k : String) (g : Account → Account) :
    mapAt l k g = l.map (fun x => (x.1, if x.1 = k then g x.2 else x.2)) := by
  unfold mapAt
  refine List.map_congr_left ?_
  intro x _
  by_cases h : x.1 = k <;> simp [h]

lemma find?_key_map (l : List (String × Account)) (g : String × Account → Account)
    (k : String) :
    (l.map (fun x => (x.1, g x))).find? (fun x => x.1 = k)
      = (l.find? (fun x => x.1 = k)).map (fun x => (x.1, g x)) := by
  induction l with
  | nil => rfl
  | cons h t ih =>
    simp only [List.map_cons, List.find?_cons]
    by_cases hk : h.1 = k
    · simp [hk]
    · simp [hk, ih]

lemma getAccount_mapAt (l : List (String × Account)) (k : String) (g : Account → Account)
    (k' : String) :
    getAccount (mapAt l k g) k'
      = if k' = k then (getAccount l k').map g else getAccount l k' := by
  unfold getAccount
  rw [mapAt_eq_map, find?_key_map l (fun x => if x.1 = k then g x.2 else x.2) k']
  cases hf : l.find? (fun x => x.1 = k') with
  | none => simp
  | some e =>
    have he : e.1 = k' := by simpa using List.find?_some hf
    by_cases hkk : k' = k
    · simp [he, hkk]
    · simp [he, hkk]

lemma getAccount_setBalance (l : List (String × Account)) (k : String) (b : Rat)
    (k' : String) :
    getAccount (setBalance l k b) k'
      = if k' = k then (getAccount l k').map (fun a => { a with balance := b })
        else getAccount l k' := by
  unfold setBalance
  exact getAccount_mapAt l k _ k'

lemma getAccount_setPassword (l : List (String × Account)) (k : String) (p : String)
    (k' : String) :
    getAccount (setPassword l k p) k'
      = if k' = k then (getAccount l k').map (fun a => { a with password := p })
        else getAccount l k' := by
  unfold setPassword
  exact getAccount_mapAt l k _ k'

lemma getAccount_of_nodup {l : List (String × Account)}
    (hnd : (l.map (fun x => x.1)).Nodup) {x : String × Account} (hx : x ∈ l) :
    getAccount l x.1 = some x.2 := by
  unfold getAccount
  cases hf : l.find? (fun y => y.1 = x.1) with
  | none =>
    rw [List.find?_eq_none] at hf
    have := hf x hx
    simp at this
  | some e =>
    have he : e.1 = x.1 := by simpa using List.find?_some hf
    have hmem : e ∈ l := List.mem_of_find?_eq_some hf
    have hex : e = x := List.inj_on_of_nodup_map hnd hmem hx he
    simp [hex]

lemma getAccount_mem {l : List (String × Account)} {k : String} {a : Account}
    (h : getAccount l k = some a) : (k, a) ∈ l := by
  unfold getAccount at h
  cases hf : l.find? (fun x => x.1 = k) with
  | none => rw [hf] at h; simp at h
  | some e =>
    rw [hf] at h
    have he : e.1 = k := by simpa using List.find?_some hf
    have hmem : e ∈ l := List.mem_of_find?_eq_some hf
    have ha : e.2 = a := by simpa using h
    have : (k, a) = e := by
      rw [← he, ← ha]
    rw [this]
    exact hmem

lemma mem_insertAccount {l : List (String × Account)} {k : String} {a : Account}
    {y : String × Account} (hy : y ∈ insertAccount l k a) : y = (k, a) ∨ y ∈ l := by
  unfold insertAccount at hy
  split at hy
  · rcases List.mem_map.1 hy with ⟨x, hx, rfl⟩
    by_cases h : x.1 = k
    · simp [h]
    · simp [h, hx]
  · rcases List.mem_append.1 hy with h | h
    · right; exact h
    · left; simpa using h

lemma mem_mapAt {l : List (String × Account)} {k : String} {g : Account → Account}
    {y : String × Account} (hy : y ∈ mapAt l k g) :
    ∃ x ∈ l, y = if x.1 = k then (x.1, g x.2) else x := by
  unfold mapAt at hy
  rcases List.mem_map.1 hy with ⟨x, hx, rfl⟩
  exact ⟨x, hx, rfl⟩

lemma getAccount_nil (k : String) : getAccount [] k = none := rfl

lemma getAccount_cons (x : String × Account) (l : List (String × Account)) (k : String) :
    getAccount (x :: l) k = if x.1 = k then some x.2 else getAccount l k := by
  unfold getAccount
  rw [List.find?_cons]
  by_cases h : x.1 = k <;> simp [h]

lemma getAccount_insertAccount_self (l : List (String × Account)) (k : String)
    (a : Account) :
    getAccount (insertAccount l k a) k = some a := by
  unfold insertAccount
  by_cases h : l.any (fun x => x.1 = k)
  · rw [if_pos h]
    induction l with
    | nil => simp at h
    | cons hd t ih =>
      by_cases hh : hd.1 = k
      · simp [List.map_cons, if_pos hh, getAccount_cons]
      · simp only [List.any_cons, Bool.or_eq_true] at h
        rcases h with h | h
        · exact absurd (by simpa using h) hh
        · simp [List.map_cons, if_neg hh, getAccount_cons, hh, ih h]
  · rw [if_neg h]
    rw [Bool.not_eq_true] at h
    induction l with
    | nil => simp [getAccount_cons]
    | cons hd t ih =>
      simp only [List.any_cons, Bool.or_eq_false_iff] at h
      have hh : ¬ hd.1 = k := by simpa using h.1
      simp [List.cons_append, getAccount_cons, hh, ih h.2]

lemma validate_amount_ok {a : Rat} (h : validate_amount a = Except.ok ()) : 0 < a := by
  unfold validate_amount at h
  by_cases ha : a ≤ 0
  · rw [if_pos ha] at h
    cases h
  · exact lt_of_not_le ha

lemma validate_password_ok {p : String} (h : validate_password p = Except.ok ()) :
    8 ≤ p.utf8ByteSize := by
  unfold validate_password at h
  by_cases hp : p.utf8ByteSize < 8
  · rw [if_pos hp] at h
    cases h
  · omega

/-- Characterization of a successful `transfer_money` call on a well-formed
ledger: the source is the first credential match, the destination is stored at
`dest_id`, the amount is positive and covered by the source balance, the
returned payload is `(amount, source balance - amount)`, and the persisted
accounts are the input accounts with exactly the two balance writes applied. -/
lemma transfer_money_ok_spec (st : State) (pw : String) (a : Rat) (dest_id : String)
    (r : Rat × Rat) (st' : State) (hWF : WF st)
    (hok : transfer_money pw a dest_id st = (Except.ok r, st')) :
    ∃ sid srcAcc destAcc,
      findSource st pw = some (sid, srcAcc) ∧
      getAccount st.accounts dest_id = some destAcc ∧
      destAcc.id = dest_id ∧
      0 < a ∧ a ≤ srcAcc.balance ∧
      r = (a, srcAcc.balance - a) ∧
      st'.accounts =
        setBalance (setBalance st.accounts sid (srcAcc.balance - a)) dest_id
          ((if dest_id = sid then srcAcc.balance - a else destAcc.balance) + a) := by
  unfold transfer_money at hok
  split at hok
  · simp at hok
  · rename_i u1 hv1
    split at hok
    · simp at hok
    · rename_i u2 hv2
      simp only [] at hok
      split at hok
      · rename_i src_id dest_id2 heq1 heq2
        obtain ⟨ps, hfs, hps1⟩ := Option.map_eq_some'.1 heq1
        obtain ⟨destAcc, hda, hdid2⟩ := Option.map_eq_some'.1 heq2
        obtain ⟨sid, srcAcc⟩ := ps
        simp only at hps1
        subst hps1
        have hdid : destAcc.id = dest_id := hWF.2 (dest_id, destAcc) (getAccount_mem hda)
        have hsrcget : getAccount st.accounts sid = some srcAcc :=
          getAccount_of_nodup hWF.1 (List.mem_of_find?_eq_some hfs)
        subst hdid2
        rw [hdid] at hok
        split at hok
        · rename_i heq3
          rw [hsrcget] at heq3
          cases heq3
        · rename_i src heq3
          rw [hsrcget] at heq3
          obtain rfl : srcAcc = src := by cases heq3; rfl
          split at hok
          · rename_i hbal
            split at hok
            · rename_i heq4
              rw [getAccount_setBalance] at heq4
              split at heq4 <;> simp [hda, hsrcget] at heq4
            · rename_i dest heq4
              rw [getAccount_setBalance] at heq4
              refine ⟨sid, srcAcc, destAcc, hfs, hda, hdid, validate_amount_ok hv2, hbal, ?_⟩
              simp only [Prod.mk.injEq] at hok
              obtain ⟨hr, hst⟩ := hok
              cases hr
              subst hst
              by_cases hds : dest_id = sid
              · rw [if_pos hds, hds, hsrcget] at heq4
                simp only [Option.map_some'] at heq4
                cases heq4
                simp [hds]
              · rw [if_neg hds, hda] at heq4
                cases heq4
                simp [hds]
          · rename_i hbal
            simp at hok
      · simp at hok

lemma find?_password_setPassword_none {l : List (String × Account)} {sid : String}
    {acc : Account} {old new : String}
    (huniq : ∀ x ∈ l, x.2.password = old → x = (sid, acc))
    (hne : old ≠ new) :
    (setPassword l sid new).find? (fun x => x.2.password = old) = none := by
  rw [List.find?_eq_none]
  intro y hy
  obtain ⟨x, hx, hyx⟩ := mem_mapAt hy
  by_cases hxs : x.1 = sid
  · rw [if_pos hxs] at hyx
    subst hyx
    simp only [decide_eq_true_eq]
    exact fun h => hne (h ▸ rfl)
  · rw [if_neg hxs] at hyx
    simp only [decide_eq_true_eq]
    intro hpw
    rw [hyx] at hpw
    exact hxs (congrArg Prod.fst (huniq x hx hpw))

lemma find?_password_setPassword_some {l : List (String × Account)} {sid : String}
    {acc : Account} {new : String}
    (hnd : (l.map (fun x => x.1)).Nodup)
    (hmem : (sid, acc) ∈ l)
    (hnonew : ∀ x ∈ l, x.2.password ≠ new) :
    (setPassword l sid new).find? (fun x => x.2.password = new)
      = some (sid, { acc with password := new }) := by
  induction l with
  | nil => cases hmem
  | cons hd t ih =>
    rw [List.map_cons, List.nodup_cons] at hnd
    rcases List.mem_cons.1 hmem with heq | hmemt
    · have hh : hd.1 = sid := by rw [← heq]
      have hhd : hd = (sid, acc) := heq.symm
      subst hhd
      simp [setPassword, mapAt, List.find?_cons, hh]
    · have hh : ¬ hd.1 = sid := by
        intro hcontra
        exact hnd.1 (hcontra ▸ List.mem_map.2 ⟨(sid, acc), hmemt, rfl⟩)
      have hstep : setPassword (hd :: t) sid new = hd :: setPassword t sid new := by
        simp [setPassword, mapAt, hh]
      rw [hstep, List.find?_cons]
      have hhd_pw : ¬ (hd.2.password = new) := hnonew hd (List.mem_cons_self hd t)
      simp only [decide_eq_false hhd_pw]
      exact ih hnd.2 hmemt (fun x hx => hnonew x (List.mem_cons_of_mem hd hx))

/-- Characterization of a successful `update_password` call: the new password
passed validation, the account was resolved by the old password, and the
persisted accounts are the input accounts with the one password overwritten. -/
lemma update_password_ok_spec (st : State) (old new : String) (r : String) (st' : State)
    (hok : update_password old new st = (Except.ok r, st')) :
    8 ≤ new.utf8ByteSize
    ∧ ∃ sid acc, findSource st old = some (sid, acc)
        ∧ st'.accounts = setPassword st.accounts sid new := by
  unfold update_password at hok
  split at hok
  · simp at hok
  · rename_i u hv
    split at hok
    · rename_i sid heq
      split at hok
      · simp at hok
      · rename_i acc2 heq2
        simp only [Prod.mk.injEq] at hok
        obtain ⟨hr, hst⟩ := hok
        obtain ⟨⟨sid0, acc⟩, hps, hps1⟩ := Option.map_eq_some'.1 heq
        simp only at hps1
        subst hps1
        exact ⟨validate_password_ok hv, sid0, acc, hps, (congrArg State.accounts hst).symm⟩
    · simp at hok

/-- On every call, `transfer_money` either leaves the state untouched or
commits exactly the two balance writes of a successful transfer (no
well-formedness assumption needed). -/
lemma transfer_money_state_cases (pw : String) (a : Rat) (dest_id : String) (st : State) :
    (transfer_money pw a dest_id st).2 = st
    ∨ ∃ sid src dest2 dest,
        0 < a ∧ getAccount st.accounts sid = some src ∧ a ≤ src.balance ∧
        getAccount (setBalance st.accounts sid (src.balance - a)) dest2 = some dest ∧
        (transfer_money pw a dest_id st).2.accounts
          = setBalance (setBalance st.accounts sid (src.balance - a)) dest2
              (dest.balance + a) := by
  unfold transfer_money
  split
  · left; rfl
  · rename_i u1 hv1
    split
    · left; rfl
    · rename_i u2 hv2
      simp only []
      split
      · rename_i src_id dest_id2 heq1 heq2
        split
        · left; rfl
        · rename_i src heq3
          split
          · rename_i hbal
            split
            · left; rfl
            · rename_i dest heq4
              right
              exact ⟨src_id, src, dest_id2, dest, validate_amount_ok hv2, heq3, hbal, heq4,
                rfl⟩
          · left; rfl
      · left; rfl

/-- C4 (amended): when the secret passes length validation, the amount is
positive, the secret resolves to a source account, and `dest_id` is not a key
of the ledger, `transfer_money` fails with the single generic
source-or-destination error (the same error as a missing source, not a
distinct destination error) and the persisted ledger — hence the source
balance — is unchanged. -/
theorem transfer_money_dest_missing (st : State) (pw : String) (a : Rat)
    (dest_id sid : String) (srcAcc : Account)
    (hpw : 8 ≤ pw.utf8ByteSize) (ha : 0 < a)
    (hsrc : findSource st pw = some (sid, srcAcc))
    (hdest : getAccount st.accounts dest_id = none) :
    transfer_money pw a dest_id st
      = (Except.error "Transfer failed. Either source or destination account not found.",
         st) := by
  have hfs : st.accounts.find? (fun x => x.2.password = pw) = some (sid, srcAcc) := hsrc
  unfold transfer_money
  rw [show validate_password pw = Except.ok () from by
        unfold validate_password; rw [if_neg (by omega)]]
  rw [show validate_amount a = Except.ok () from by
        unfold validate_amount; rw [if_neg (not_le.2 ha)]]
  simp only [hfs, hdest, Option.map_some', Option.map_none']

/-- C5 (amended): for every secret of byte length at least 8, every
destination id, and every amount ≤ 0, `transfer_money` fails with the
invalid-amount error before any account lookup (the result does not depend on
the ledger contents) and the persisted ledger is unchanged. -/
theorem transfer_money_invalid_amount (st : State) (pw : String) (a : Rat)
    (dest_id : String) (hpw : 8 ≤ pw.utf8ByteSize) (ha : a ≤ 0) :
    transfer_money pw a dest_id st
      = (Except.error "Transfer amount must be greater than 0", st) := by
  unfold transfer_money
  rw [show validate_password pw = Except.ok () from by
        unfold validate_password; rw [if_neg (by omega)]]
  rw [show validate_amount a = Except.error "Transfer amount must be greater than 0" from by
        unfold validate_amount; rw [if_pos ha]]

/-- C6: when the source and destination both resolve but the source account's
balance is strictly below the amount, `transfer_money` fails with the
insufficient-balance error and the persisted ledger is identical to the
ledger before the call. -/
theorem transfer_money_insufficient (st : State) (pw : String) (a : Rat)
    (dest_id sid : String) (srcAcc : Account)
    (hWF : WF st) (hpw : 8 ≤ pw.utf8ByteSize) (ha : 0 < a)
    (hsrc : findSource st pw = some (sid, srcAcc))
    (hdest : (getAccount st.accounts dest_id).isSome = true)
    (hbal : srcAcc.balance < a) :
    transfer_money pw a dest_id st = (Except.error "Insufficient balance", st) := by
  have hfs : st.accounts.find? (fun x => x.2.password = pw) = some (sid, srcAcc) := hsrc
  obtain ⟨destAcc, hda⟩ := Option.isSome_iff_exists.1 hdest
  have hsrcget : getAccount st.accounts sid = some srcAcc :=
    getAccount_of_nodup hWF.1 (List.mem_of_find?_eq_some hfs)
  unfold transfer_money
  rw [show validate_password pw = Except.ok () from by
        unfold validate_password; rw [if_neg (by omega)]]
  rw [show validate_amount a = Except.ok () from by
        unfold validate_amount; rw [if_neg (not_le.2 ha)]]
  simp only [hfs, hda, Option.map_some', hsrcget]
  rw [if_neg (not_le.2 hbal)]

/-- C1: for every well-formed ledger and every successful `transfer_money`
call with source account stored at key `sid` (resolved by secret) and
destination resolved by `dest_id`, the sum of the two stored balances in the
persisted ledger is unchanged; in particular, when the two accounts are
distinct, the source balance is 100 and `0 < amount ≤ 100`, afterwards the
source balance is `100 - amount` and the destination balance grew by
`amount`. -/
theorem transfer_money_conserves_sum (st : State) (pw : String) (a : Rat)
    (dest_id sid : String) (srcAcc : Account) (r : Rat × Rat) (st' : State)
    (hWF : WF st) (hsrc : findSource st pw = some (sid, srcAcc))
    (hok : transfer_money pw a dest_id st = (Except.ok r, st')) :
    balOf st' sid + balOf st' dest_id = balOf st sid + balOf st dest_id
    ∧ (sid ≠ dest_id → srcAcc.balance = 100 → 0 < a → a ≤ 100 →
        balOf st' sid = 100 - a ∧ balOf st' dest_id = balOf st dest_id + a) := by
  obtain ⟨sid', srcAcc', destAcc, hfs', hda, hdid, hapos, hale, hr, hst⟩ :=
    transfer_money_ok_spec st pw a dest_id r st' hWF hok
  have hpair : (some (sid, srcAcc) : Option (String × Account)) = some (sid', srcAcc') :=
    hsrc.symm.trans hfs'
  cases hpair
  have hsrcget : getAccount st.accounts sid = some srcAcc :=
    getAccount_of_nodup hWF.1 (List.mem_of_find?_eq_some (show _ from hsrc))
  unfold balOf
  rw [hst]
  rw [getAccount_setBalance, getAccount_setBalance, getAccount_setBalance,
    getAccount_setBalance]
  by_cases hds : dest_id = sid
  · subst hds
    refine ⟨?_, ?_⟩
    · simp [hsrcget]
    · intro hne _ _ _
      exact absurd rfl hne
  · have hsd : ¬ sid = dest_id := fun h => hds h.symm
    refine ⟨?_, ?_⟩
    · simp [hsrcget, hda, hds, hsd]
    · intro _ hb _ _
      simp [hsrcget, hda, hds, hsd, hb]

lemma getAccount_setBalance_map_id (l : List (String × Account)) (k : String) (b : Rat)
    (k' : String) :
    (getAccount (setBalance l k b) k').map (fun x => x.id)
      = (getAccount l k').map (fun x => x.id) := by
  rw [getAccount_setBalance]
  by_cases h : k' = k
  · rw [if_pos h]
    cases getAccount l k' <;> simp
  · rw [if_neg h]

lemma getAccount_setBalance_map_pw (l : List (String × Account)) (k : String) (b : Rat)
    (k' : String) :
    (getAccount (setBalance l k b) k').map (fun x => x.password)
      = (getAccount l k').map (fun x => x.password) := by
  rw [getAccount_setBalance]
  by_cases h : k' = k
  · rw [if_pos h]
    cases getAccount l k' <;> simp
  · rw [if_neg h]

/-- C10: a successful `transfer_money` call on a well-formed ledger changes
nothing but the two balances: every key other than the source key and
`dest_id` maps to the same account afterwards, and the `id` and `password`
stored at every key (the two participants included) are unchanged. -/
theorem transfer_money_frame (st : State) (pw : String) (a : Rat)
    (dest_id sid : String) (srcAcc : Account) (r : Rat × Rat) (st' : State)
    (hWF : WF st) (hsrc : findSource st pw = some (sid, srcAcc))
    (hok : transfer_money pw a dest_id st = (Except.ok r, st')) :
    (∀ k, k ≠ sid → k ≠ dest_id → getAccount st'.accounts k = getAccount st.accounts k)
    ∧ (∀ k, (getAccount st'.accounts k).map (fun x => x.id)
          = (getAccount st.accounts k).map (fun x => x.id))
    ∧ (∀ k, (getAccount st'.accounts k).map (fun x => x.password)
          = (getAccount st.accounts k).map (fun x => x.password)) := by
  obtain ⟨sid', srcAcc', destAcc, hfs', hda, hdid, hapos, hale, hr, hst⟩ :=
    transfer_money_ok_spec st pw a dest_id r st' hWF hok
  have hpair : (some (sid, srcAcc) : Option (String × Account)) = some (sid', srcAcc') :=
    hsrc.symm.trans hfs'
  cases hpair
  refine ⟨?_, ?_, ?_⟩
  · intro k hk1 hk2
    rw [hst, getAccount_setBalance, getAccount_setBalance, if_neg hk2, if_neg hk1]
  · intro k
    rw [hst, getAccount_setBalance_map_id, getAccount_setBalance_map_id]
  · intro k
    rw [hst, getAccount_setBalance_map_pw, getAccount_setBalance_map_pw]

/-- C2 counterexample: the credential stored by `make_account` is the
plaintext secret itself, not a hash of it — the persisted `password` field of
the account created with secret `"password1"` is literally `"password1"`. -/
theorem make_account_plaintext_counterexample :
    (getAccount (make_account "id1" "password1" ⟨[]⟩).2.accounts "id1").map
        (fun a => a.password)
      = some "password1" := by
  rfl

/-- C2 (amended): the stored credential field is the user-chosen secret kept
verbatim (no hashing, no salting) by both credential-writing operations: after
`make_account` the account persisted at the fresh key holds exactly the
plaintext password that was supplied, and after a successful `update_password`
the rotated account holds exactly the plaintext new password. -/
theorem credential_stored_plaintext (st : State) :
    (∀ rid pw, 8 ≤ pw.utf8ByteSize →
        getAccount (make_account rid pw st).2.accounts rid
          = some { id := rid, password := pw, balance := 100 })
    ∧ (∀ o n sid acc r st', WF st →
        findSource st o = some (sid, acc) →
        update_password o n st = (Except.ok r, st') →
        getAccount st'.accounts sid = some { acc with password := n }) := by
  constructor
  · intro rid pw hpw
    unfold make_account
    rw [show validate_password pw = Except.ok () from by
          unfold validate_password; rw [if_neg (by omega)]]
    exact getAccount_insertAccount_self st.accounts rid _
  · intro o n sid acc r st' hWF hfind hok
    obtain ⟨hlen, sid', acc', hfind', hst⟩ := update_password_ok_spec st o n r st' hok
    have hpair : (some (sid, acc) : Option (String × Account)) = some (sid', acc') :=
      hfind.symm.trans hfind'
    cases hpair
    have hfs : st.accounts.find? (fun x => x.2.password = o) = some (sid, acc) := hfind
    have hget : getAccount st.accounts sid = some acc :=
      getAccount_of_nodup hWF.1 (List.mem_of_find?_eq_some hfs)
    rw [hst]
    rw [show setPassword st.accounts sid n = mapAt st.accounts sid
          (fun a => { a with password := n }) from rfl]
    rw [getAccount_mapAt, if_pos rfl, hget]
    rfl

/-- C7 counterexample: credential rotation is keyed on a non-unique password.
With two accounts that share the password `"password1"`, `update_password`
succeeds but rewrites only the first match, so `get_balance` with the old
password still succeeds afterwards (returning the second account's balance)
instead of failing. -/
theorem update_password_duplicate_counterexample :
    (update_password "password1" "password2"
        ⟨[("A", ⟨"A", "password1", 100⟩), ("B", ⟨"B", "password1", 50⟩)]⟩).1
      = Except.ok "Password updated successfully"
    ∧ get_balance "password1"
        (update_password "password1" "password2"
          ⟨[("A", ⟨"A", "password1", 100⟩), ("B", ⟨"B", "password1", 50⟩)]⟩).2
      = Except.ok 50 := by
  constructor <;> rfl

/-- C7 (amended): on a well-formed ledger where exactly one account carries
the old password, no account carries the new password, and the old password
is nonempty, a successful `update_password old new` makes `get_balance old`
fail with the account-not-found error and `get_balance new` succeed with the
rotated account's unchanged balance. -/
theorem update_password_rotates (st : State) (old new : String) (sid : String)
    (acc : Account) (r : String) (st' : State)
    (hWF : WF st)
    (hfind : findSource st old = some (sid, acc))
    (huniq : ∀ x ∈ st.accounts, x.2.password = old → x = (sid, acc))
    (hnonew : ∀ x ∈ st.accounts, x.2.password ≠ new)
    (hold : old ≠ "")
    (hok : update_password old new st = (Except.ok r, st')) :
    get_balance old st' = Except.error "Account not found"
    ∧ get_balance new st' = Except.ok acc.balance := by
  obtain ⟨hlen, sid', acc', hfind', hst⟩ := update_password_ok_spec st old new r st' hok
  have hpair : (some (sid, acc) : Option (String × Account)) = some (sid', acc') :=
    hfind.symm.trans hfind'
  cases hpair
  have hfs : st.accounts.find? (fun x => x.2.password = old) = some (sid, acc) := hfind
  have hmem : (sid, acc) ∈ st.accounts := List.mem_of_find?_eq_some hfs
  have haccpw : acc.password = old := by simpa using List.find?_some hfs
  have hnew_ne : new ≠ "" := by
    intro hcontra
    rw [hcontra] at hlen
    have h0 : ("" : String).utf8ByteSize = 0 := rfl
    omega
  have hone : old ≠ new := by
    intro hcontra
    exact hnonew (sid, acc) hmem (haccpw.trans hcontra)
  constructor
  · unfold get_balance
    rw [if_neg (by simpa [String.isEmpty_iff] using hold)]
    rw [hst, find?_password_setPassword_none huniq hone]
  · unfold get_balance
    rw [if_neg (by simpa [String.isEmpty_iff] using hnew_ne)]
    rw [hst, find?_password_setPassword_some hWF.1 hmem hnonew]

/-- C3: on the allowed self-transfer (`dest_id` equal to the source's own
key), the success payload reports `100 - 30 = 70` as the source's new balance,
while the persisted ledger still stores balance `100` for that account (the
destination increment restored it after the reported value was captured): the
returned value is not the committed balance. -/
theorem transfer_money_self_transfer_report :
    transfer_money "password1" 30 "A" ⟨[("A", ⟨"A", "password1", 100⟩)]⟩
      = (Except.ok (30, 70), ⟨[("A", ⟨"A", "password1", 100⟩)]⟩) := by
  simp only [transfer_money, validate_password, validate_amount, getAccount, setBalance,
    mapAt, List.find?, List.map, show "password1".utf8ByteSize = 9 from by decide]
  norm_num

/-- C4 counterexample: a transfer to a missing destination does not fail with
a distinct destination-not-found error; it returns exactly the same generic
source-or-destination message that a missing source produces. -/
theorem transfer_money_destmissing_counterexample :
    (transfer_money "password1" 30 "NOPE" ⟨[("A", ⟨"A", "password1", 100⟩)]⟩).1
      = Except.error "Transfer failed. Either source or destination account not found."
    ∧ (transfer_money "password12" 30 "A" ⟨[("A", ⟨"A", "password1", 100⟩)]⟩).1
      = Except.error "Transfer failed. Either source or destination account not found." := by
  constructor <;> rfl

/-- C5 counterexample: with a secret shorter than 8 bytes and a non-positive
amount, `transfer_money` fails with the password-length error, not the
invalid-amount error — password validation runs first. -/
theorem transfer_money_invalid_amount_counterexample :
    (transfer_money "short" 0 "A" ⟨[]⟩).1
      = Except.error "Password must be at least 8 characters long"
    ∧ (transfer_money "short" 0 "A" ⟨[]⟩).1
      ≠ Except.error "Transfer amount must be greater than 0" := by
  constructor
  · rfl
  · intro hcontra
    have h2 : (Except.error "Password must be at least 8 characters long"
        : Except String (Rat × Rat))
        = Except.error "Transfer amount must be greater than 0" := hcontra
    injection h2 with heq
    exact absurd heq (by decide)

/-! ## Balance and password invariants -/

lemma nonneg_setBalance {l : List (String × Account)} {k : String} {b : Rat}
    (hb : 0 ≤ b) (hl : ∀ x ∈ l, 0 ≤ x.2.balance) :
    ∀ y ∈ setBalance l k b, 0 ≤ y.2.balance := by
  intro y hy
  obtain ⟨x, hx, hyx⟩ := mem_mapAt hy
  by_cases hxk : x.1 = k
  · rw [if_pos hxk] at hyx
    subst hyx
    exact hb
  · rw [if_neg hxk] at hyx
    rw [hyx]
    exact hl x hx

lemma nonneg_setPassword {l : List (String × Account)} {k p : String}
    (hl : ∀ x ∈ l, 0 ≤ x.2.balance) :
    ∀ y ∈ setPassword l k p, 0 ≤ y.2.balance := by
  intro y hy
  obtain ⟨x, hx, hyx⟩ := mem_mapAt hy
  by_cases hxk : x.1 = k
  · rw [if_pos hxk] at hyx
    subst hyx
    exact hl x hx
  · rw [if_neg hxk] at hyx
    rw [hyx]
    exact hl x hx

lemma pwlen_setBalance {l : List (String × Account)} {k : String} {b : Rat}
    (hl : ∀ x ∈ l, 8 ≤ x.2.password.utf8ByteSize) :
    ∀ y ∈ setBalance l k b, 8 ≤ y.2.password.utf8ByteSize := by
  intro y hy
  obtain ⟨x, hx, hyx⟩ := mem_mapAt hy
  by_cases hxk : x.1 = k
  · rw [if_pos hxk] at hyx
    subst hyx
    exact hl x hx
  · rw [if_neg hxk] at hyx
    rw [hyx]
    exact hl x hx

lemma pwlen_setPassword {l : List (String × Account)} {k p : String}
    (hp : 8 ≤ p.utf8ByteSize) (hl : ∀ x ∈ l, 8 ≤ x.2.password.utf8ByteSize) :
    ∀ y ∈ setPassword l k p, 8 ≤ y.2.password.utf8ByteSize := by
  intro y hy
  obtain ⟨x, hx, hyx⟩ := mem_mapAt hy
  by_cases hxk : x.1 = k
  · rw [if_pos hxk] at hyx
    subst hyx
    exact hp
  · rw [if_neg hxk] at hyx
    rw [hyx]
    exact hl x hx

/-- C8: every operation keeps all stored balances non-negative — given that
every account has balance ≥ 0 before the call, every account in the persisted
ledger after `make_account`, `transfer_money`, `update_password` or
`delete_account` (successful or not) has balance ≥ 0. -/
theorem ops_preserve_nonneg (st : State) (h : Nonneg st) :
    (∀ rid pw, Nonneg (make_account rid pw st).2)
    ∧ (∀ pw a d, Nonneg (transfer_money pw a d st).2)
    ∧ (∀ o n, Nonneg (update_password o n st).2)
    ∧ (∀ pw, Nonneg (delete_account pw st).2) := by
  refine ⟨?_, ?_, ?_, ?_⟩
  · intro rid pw
    unfold make_account
    split
    · exact h
    · intro y hy
      rcases mem_insertAccount hy with rfl | hy'
      · show (0 : Rat) ≤ 100
        norm_num
      · exact h y hy'
  · intro pw a d
    rcases transfer_money_state_cases pw a d st with heq |
      ⟨sid, src, dest2, dest, hapos, hsrcg, hale, hdestg, heq⟩
    · rw [heq]
      exact h
    · intro y hy
      rw [heq] at hy
      have h1 : ∀ x ∈ setBalance st.accounts sid (src.balance - a), 0 ≤ x.2.balance :=
        nonneg_setBalance (by linarith) h
      have h2 : 0 ≤ dest.balance + a := by
        have := h1 _ (getAccount_mem hdestg)
        linarith
      exact nonneg_setBalance h2 h1 y hy
  · intro o n
    unfold update_password
    split
    · exact h
    · split
      · split
        · exact h
        · intro y hy
          exact nonneg_setPassword h y hy
      · exact h
  · intro pw
    unfold delete_account
    split
    · intro y hy
      exact h y (List.Sublist.subset (List.eraseP_sublist _) hy)
    · exact h

/-- C9: every operation keeps all stored passwords at least 8 bytes long
(`make_account` and `update_password` validate before writing, the other
operations never write a password), and under that invariant an empty secret
matches no stored account. -/
theorem ops_preserve_password_length (st : State) (h : PwLenInv st) :
    (∀ rid pw, PwLenInv (make_account rid pw st).2)
    ∧ (∀ pw a d, PwLenInv (transfer_money pw a d st).2)
    ∧ (∀ o n, PwLenInv (update_password o n st).2)
    ∧ (∀ pw, PwLenInv (delete_account pw st).2)
    ∧ findSource st "" = none := by
  refine ⟨?_, ?_, ?_, ?_, ?_⟩
  · intro rid pw
    unfold make_account
    split
    · exact h
    · rename_i u hv
      intro y hy
      rcases mem_insertAccount hy with rfl | hy'
      · exact validate_password_ok hv
      · exact h y hy'
  · intro pw a d
    rcases transfer_money_state_cases pw a d st with heq |
      ⟨sid, src, dest2, dest, hapos, hsrcg, hale, hdestg, heq⟩
    · rw [heq]
      exact h
    · intro y hy
      rw [heq] at hy
      exact pwlen_setBalance (pwlen_setBalance h) y hy
  · intro o n
    unfold update_password
    split
    · exact h
    · rename_i u hv
      split
      · split
        · exact h
        · intro y hy
          exact pwlen_setPassword (validate_password_ok hv) h y hy
      · exact h
  · intro pw
    unfold delete_account
    split
    · intro y hy
      exact h y (List.Sublist.subset (List.eraseP_sublist _) hy)
    · exact h
  · unfold findSource
    rw [List.find?_eq_none]
    intro x hx
    simp only [decide_eq_true_eq]
    intro hempty
    have := h x hx
    rw [hempty] at this
    have h0 : ("" : String).utf8ByteSize = 0 := rfl
    omega

/-! ## Concrete instantiations of the hypothesised theorems -/

theorem transfer_money_conserves_sum_witness :
    balOf exLedgerT "A" + balOf exLedgerT "B" = balOf exLedger "A" + balOf exLedger "B"
    ∧ ("A" ≠ "B" → (100 : Rat) = 100 → (0 : Rat) < 30 → (30 : Rat) ≤ 100 →
        balOf exLedgerT "A" = 100 - 30 ∧ balOf exLedgerT "B" = balOf exLedger "B" + 30) :=
  transfer_money_conserves_sum exLedger "password1" 30 "B" "A" ⟨"A", "password1", 100⟩
    (30, 70) exLedgerT ⟨by decide, by decide⟩ rfl
    (by simp [transfer_money, validate_password, validate_amount, getAccount,
          setBalance, mapAt, exLedger, exLedgerT, List.find?,
          show "password1".utf8ByteSize = 9 from by decide,
          show ("A" = "B") = False from by simp,
          show ("B" = "A") = False from by simp]
        norm_num)

theorem transfer_money_frame_witness :
    getAccount exLedger3T.accounts "C" = getAccount exLedger3.accounts "C"
    ∧ (getAccount exLedger3T.accounts "A").map (fun x => x.id)
        = (getAccount exLedger3.accounts "A").map (fun x => x.id)
    ∧ (getAccount exLedger3T.accounts "A").map (fun x => x.password)
        = (getAccount exLedger3.accounts "A").map (fun x => x.password) := by
  have hok : transfer_money "password1" 30 "B" exLedger3 = (Except.ok (30, 70), exLedger3T) := by
    simp [transfer_money, validate_password, validate_amount, getAccount,
      setBalance, mapAt, exLedger3, exLedger3T, List.find?,
      show "password1".utf8ByteSize = 9 from by decide,
      show ("A" = "B") = False from by simp,
      show ("B" = "A") = False from by simp,
      show ("C" = "B") = False from by simp]
    norm_num
  have h := transfer_money_frame exLedger3 "password1" 30 "B" "A" ⟨"A", "password1", 100⟩
    (30, 70) exLedger3T ⟨by decide, by decide⟩ rfl hok
  exact ⟨h.1 "C" (by decide) (by decide), h.2.1 "A", h.2.2 "A"⟩

theorem transfer_money_dest_missing_witness :
    transfer_money "password1" 30 "NOPE" exLedger
      = (Except.error "Transfer failed. Either source or destination account not found.",
         exLedger) :=
  transfer_money_dest_missing exLedger "password1" 30 "NOPE" "A" ⟨"A", "password1", 100⟩
    (by decide) (by norm_num) rfl rfl

theorem transfer_money_invalid_amount_witness :
    transfer_money "password1" 0 "B" exLedger
      = (Except.error "Transfer amount must be greater than 0", exLedger) :=
  transfer_money_invalid_amount exLedger "password1" 0 "B" (by decide) (by norm_num)

theorem transfer_money_insufficient_witness :
    transfer_money "password1" 1000 "B" exLedger
      = (Except.error "Insufficient balance", exLedger) :=
  transfer_money_insufficient exLedger "password1" 1000 "B" "A" ⟨"A", "password1", 100⟩
    ⟨by decide, by decide⟩ (by decide) (by norm_num) rfl rfl (by norm_num)

theorem credential_stored_plaintext_witness :
    getAccount (make_account "id9" "password9" ⟨[]⟩).2.accounts "id9"
      = some { id := "id9", password := "password9", balance := 100 }
    ∧ getAccount exLedgerR.accounts "A"
      = some { id := "A", password := "password3", balance := 100 } :=
  ⟨(credential_stored_plaintext ⟨[]⟩).1 "id9" "password9" (by decide),
   (credential_stored_plaintext exLedger).2 "password1" "password3" "A"
     ⟨"A", "password1", 100⟩ "Password updated successfully" exLedgerR
     ⟨by decide, by decide⟩ rfl rfl⟩

theorem update_password_rotates_witness :
    get_balance "password1" exLedgerR = Except.error "Account not found"
    ∧ get_balance "password3" exLedgerR = Except.ok 100 :=
  update_password_rotates exLedger "password1" "password3" "A" ⟨"A", "password1", 100⟩
    "Password updated successfully" exLedgerR ⟨by decide, by decide⟩ rfl (by decide)
    (by decide) (by decide) rfl

theorem ops_preserve_nonneg_witness :
    Nonneg (transfer_money "password1" 30 "B" exLedger).2 :=
  (ops_preserve_nonneg exLedger
      (show ∀ x ∈ exLedger.accounts, 0 ≤ x.2.balance from by decide)).2.1 "password1" 30 "B"

theorem ops_preserve_password_length_witness :
    findSource exLedger "" = none :=
  (ops_preserve_password_length exLedger
      (show ∀ x ∈ exLedger.accounts, 8 ≤ x.2.password.utf8ByteSize from by
        decide)).2.2.2.2
